import Mathlib

/-!
Verification of the project visibility engine and helper functions of the
OpenPlayground front end.  The engine itself is imported by src/js/app.js from
js/core/projectVisibilityEngine.js, a file that is not part of the sources we
hold, so its state and operations are modelled from the specification; the
helpers updateCategoryCounts and capitalize are embedded directly from
src/js/app.js.
-/

namespace OpenPlayground

/-- Whether the character list q occurs at the very start of the second list. -/
def startsWithList : List Char → List Char → Bool
  | [], _ => true
  | _ :: _, [] => false
  | q :: qs, c :: cs => (q == c) && startsWithList qs cs

/-- Whether the character list q occurs contiguously somewhere in the second
list (at any position, including the end). -/
def containsList (q : List Char) : List Char → Bool
  | [] => startsWithList q []
  | c :: cs => startsWithList q (c :: cs) || containsList q cs

/-- Models the JavaScript test haystack.includes(needle) on strings. -/
def strIncludes (haystack needle : String) : Bool :=
  containsList needle.toList haystack.toList

/-- Models the JavaScript call s.toLowerCase() as a per-character ASCII case
mapping. -/
def jsToLower (s : String) : String := String.mk (s.data.map Char.toLower)

/-- Models the JavaScript call s.trim(): removes leading and trailing
whitespace. -/
def jsTrim (s : String) : String :=
  String.mk (((s.data.dropWhile Char.isWhitespace).reverse.dropWhile
    Char.isWhitespace).reverse)

/-- Modelled from the spec: QueryNormalizer.normalize of the missing file
js/core/projectVisibilityEngine.js performs trim + lowercase, and is used
identically on the stored query and on every field matched against. -/
def normalize (text : String) : String := jsToLower (jsTrim text)

/-- Modelled from the spec: the ProjectRecord value type consumed by the engine
of the missing file js/core/projectVisibilityEngine.js.  The tech field is an
Option so that a malformed record whose optional tech list is missing can be
represented; presentation-only fields (link, icon, cover hints) are opaque to
the engine and omitted. -/
structure ProjectRecord where
  title : String
  category : String
  description : String
  tech : Option (List String)
deriving Repr, DecidableEq

/-- The tech entries of a record; a missing tech list contributes no entry. -/
def ProjectRecord.techEntries (r : ProjectRecord) : List String := r.tech.getD []

/-- Modelled from the spec: the three-field state of ProjectVisibilityEngine
of the missing file js/core/projectVisibilityEngine.js. -/
structure ProjectVisibilityEngine where
  allProjects : List ProjectRecord
  searchQuery : String
  category : String
deriving Repr, DecidableEq

/-- Modelled from the spec: constructor(projects) stores the collection and
initializes searchQuery to the empty string and category to the sentinel
"all"; an empty collection is valid. -/
def ProjectVisibilityEngine.new (projects : List ProjectRecord) : ProjectVisibilityEngine :=
  { allProjects := projects, searchQuery := "", category := "all" }

/-- Modelled from the spec: setSearchQuery(text) stores the raw text;
normalization happens at match time. -/
def ProjectVisibilityEngine.setSearchQuery (e : ProjectVisibilityEngine) (text : String) :
    ProjectVisibilityEngine :=
  { e with searchQuery := text }

/-- Modelled from the spec: setCategory(categoryName) stores any string
verbatim, with no validation against a known category set. -/
def ProjectVisibilityEngine.setCategory (e : ProjectVisibilityEngine) (categoryName : String) :
    ProjectVisibilityEngine :=
  { e with category := categoryName }

/-- Modelled from the spec: reset() restores searchQuery to the empty string
and category to the sentinel "all". -/
def ProjectVisibilityEngine.reset (e : ProjectVisibilityEngine) : ProjectVisibilityEngine :=
  { e with searchQuery := "", category := "all" }

/-- Modelled from the spec: the category gate passes a record when the current
category lowercased is the sentinel "all", or matches the record category
lowercased. -/
def categoryGate (category : String) (r : ProjectRecord) : Bool :=
  jsToLower category == "all" || jsToLower r.category == jsToLower category

/-- Modelled from the spec: the search gate passes every record when the
normalized query is empty, and otherwise requires the normalized query to be a
substring of the normalized title, description, or some tech entry; a missing
tech list is treated as non-matching for that contribution. -/
def searchGate (searchQuery : String) (r : ProjectRecord) : Bool :=
  let q := normalize searchQuery
  q == "" ||
    strIncludes (normalize r.title) q ||
    strIncludes (normalize r.description) q ||
    (match r.tech with
      | none => false
      | some ts => ts.any fun t => strIncludes (normalize t) q)

/-- Modelled from the spec: getVisibleProjects() returns the records passing
both gates, as a stable filter preserving the original order. -/
def ProjectVisibilityEngine.getVisibleProjects (e : ProjectVisibilityEngine) :
    List ProjectRecord :=
  e.allProjects.filter fun r => categoryGate e.category r && searchGate e.searchQuery r

/-- A criteria mutation on the engine: a setSearchQuery or a setCategory call. -/
inductive EngineOp where
  | search (text : String)
  | cat (categoryName : String)
deriving Repr, DecidableEq

/-- Apply one criteria mutation to the engine state. -/
def applyOp (e : ProjectVisibilityEngine) : EngineOp → ProjectVisibilityEngine
  | .search t => e.setSearchQuery t
  | .cat c => e.setCategory c

/-- Apply a finite sequence of criteria mutations, left to right. -/
def applyOps (e : ProjectVisibilityEngine) (ops : List EngineOp) : ProjectVisibilityEngine :=
  ops.foldl applyOp e

/-- Modelled from the spec: a call of the method getVisibleProjects() observed
together with the engine state after the call — the method computes a fresh
list and has no side effect on the state. -/
def getVisibleProjectsCall (e : ProjectVisibilityEngine) :
    List ProjectRecord × ProjectVisibilityEngine :=
  (e.getVisibleProjects, e)

/-- A raw entry of allProjectsData as read from projects.json: the category
field may be absent (JavaScript undefined or null), modelled as none. -/
structure RawProject where
  category : Option String
deriving Repr, DecidableEq

/-- The key a project is counted under in updateCategoryCounts of
src/js/app.js: a truthy category field is lowercased, a falsy one (absent, or
the empty string) counts as "unknown". -/
def catKey : Option String → String
  | none => "unknown"
  | some s => if s = "" then "unknown" else jsToLower s

/-- The counts object built by the forEach loop of updateCategoryCounts in
src/js/app.js, as a total function from key to count: a key never written
reads as 0, mirroring the JavaScript default in counts[cat] || 0. -/
def categoryCountsLoop (ps : List RawProject) : String → Nat :=
  ps.foldl (fun counts p k => if k = catKey p.category then counts k + 1 else counts k)
    fun _ => 0

/-- updateCategoryCounts of src/js/app.js: returns early, computing nothing,
when the collection is empty; otherwise builds the per-category counts. -/
def updateCategoryCounts (ps : List RawProject) : Option (String → Nat) :=
  if ps.isEmpty then none else some (categoryCountsLoop ps)

/-- Models the JavaScript call s.charAt(i): the one-character string at index
i, or the empty string when i is out of range. -/
def jsCharAt (s : String) (i : Nat) : String :=
  match s.toList.drop i with
  | [] => ""
  | c :: _ => String.mk [c]

/-- Models the JavaScript call s.slice(i) for a nonnegative index i. -/
def jsSlice (s : String) (i : Nat) : String := String.mk (s.toList.drop i)

/-- Models the JavaScript call s.toUpperCase() as a per-character ASCII case
mapping. -/
def jsToUpper (s : String) : String := String.mk (s.toList.map Char.toUpper)

/-- The first declaration of capitalize in src/js/app.js (lines 448-451): a
falsy argument — for a string argument, exactly the empty string — returns the
empty string, otherwise the first character is uppercased and the rest kept. -/
def capitalize (str : String) : String :=
  if str = "" then "" else jsToUpper (jsCharAt str 0) ++ jsSlice str 1

/-- The second declaration of capitalize in src/js/app.js (line 529): the same
expression with no falsy guard. -/
def capitalizeDup (str : String) : String :=
  jsToUpper (jsCharAt str 0) ++ jsSlice str 1

/-- Concrete record used in witness scenarios, taken from the spec test
scenario. -/
def rAlpha : ProjectRecord :=
  { title := "Alpha", category := "Tools", description := "d", tech := some ["X"] }

/-- Concrete record used in witness scenarios, taken from the spec test
scenario. -/
def rBeta : ProjectRecord :=
  { title := "Beta", category := "Games", description := "d", tech := some ["Y"] }

/-- Concrete malformed record (missing tech list) used in witness scenarios. -/
def rBad : ProjectRecord :=
  { title := "Bad", category := "Tools", description := "d", tech := none }

/-- Claim C3: the visible list is a sublist of allProjects — every returned
record occurs in the collection, none is duplicated or invented, the relative
order is the source order, and the length never exceeds the collection
length. -/
theorem getVisibleProjects_sublist (e : ProjectVisibilityEngine) :
    List.Sublist e.getVisibleProjects e.allProjects ∧
      e.getVisibleProjects.length ≤ e.allProjects.length :=
  ⟨List.filter_sublist _, List.length_filter_le _ _⟩

/-- Claim C6: the engine constructed over the empty collection is a valid
state, and getVisibleProjects returns the empty list — never an absent
value — for every search query and category. -/
theorem empty_collection_visible (q c : String) :
    (((ProjectVisibilityEngine.new []).setSearchQuery q).setCategory c).getVisibleProjects
      = [] :=
  rfl

/-- Claim C10: the two duplicate declarations of capitalize agree on every
string: both send the empty string to the empty string, and a non-empty
string to its first character uppercased followed by the unchanged rest. -/
theorem capitalize_duplicates_agree :
    (∀ s, capitalize s = capitalizeDup s) ∧
      (capitalize "" = "" ∧ capitalizeDup "" = "") ∧
      ∀ c cs, capitalize (String.mk (c :: cs)) = String.mk (c.toUpper :: cs) := by
  refine ⟨?_, ⟨rfl, rfl⟩, ?_⟩
  · intro s
    by_cases h : s = ""
    · subst h; rfl
    · simp [capitalize, capitalizeDup, h]
  · intro c cs
    have hne : String.mk (c :: cs) ≠ "" := by
      intro h
      have hdata := congrArg String.data h
      simp at hdata
    simp only [capitalize, if_neg hne]
    rfl

/-- Claim C1: after setSearchQuery(q) with q trimming to a non-empty string, a
record is visible (category permitting) iff the normalized query is a
substring of the normalized title, of the normalized description, or of some
normalized tech entry; a query that is empty or whitespace-only passes the
search gate for every record. -/
theorem search_substring_law (e : ProjectVisibilityEngine) (r : ProjectRecord) (q : String) :
    (normalize q ≠ "" →
      (r ∈ (e.setSearchQuery q).getVisibleProjects ↔
        r ∈ e.allProjects ∧ categoryGate e.category r = true ∧
          (strIncludes (normalize r.title) (normalize q) = true ∨
            strIncludes (normalize r.description) (normalize q) = true ∨
            ∃ t ∈ r.techEntries, strIncludes (normalize t) (normalize q) = true))) ∧
    (normalize q = "" → searchGate q r = true) := by
  constructor
  · intro h
    cases htech : r.tech with
    | none =>
      simp [ProjectVisibilityEngine.getVisibleProjects, ProjectVisibilityEngine.setSearchQuery,
        List.mem_filter, searchGate, h, htech, ProjectRecord.techEntries, and_assoc]
    | some ts =>
      simp [ProjectVisibilityEngine.getVisibleProjects, ProjectVisibilityEngine.setSearchQuery,
        List.mem_filter, searchGate, h, htech, ProjectRecord.techEntries, List.any_eq_true,
        and_assoc]
      intro _ _
      tauto
  · intro h
    simp [searchGate, h]

/-- Claim C1 witness: in the spec scenario, searching for "alp" makes Alpha
visible. -/
theorem search_substring_law_witness :
    rAlpha ∈ ((ProjectVisibilityEngine.new [rAlpha, rBeta]).setSearchQuery
      "alp").getVisibleProjects :=
  ((search_substring_law (ProjectVisibilityEngine.new [rAlpha, rBeta]) rAlpha "alp").1
      (by decide)).mpr ⟨by decide, by decide, Or.inl (by decide)⟩

/-- Claim C2: the category gate is determined by case-insensitive equality —
a current category lowercasing to "all" passes every record; any other
category passes exactly the records whose own category matches it
case-insensitively, and a mismatching record is excluded from
getVisibleProjects regardless of the search query. -/
theorem category_gate_law (ps : List ProjectRecord) (c q : String) (r : ProjectRecord) :
    (jsToLower c = "all" → categoryGate c r = true) ∧
    (jsToLower c ≠ "all" →
      ((categoryGate c r = true ↔ jsToLower r.category = jsToLower c) ∧
        (jsToLower r.category ≠ jsToLower c →
          r ∉ (((ProjectVisibilityEngine.new ps).setCategory c).setSearchQuery
            q).getVisibleProjects))) := by
  refine ⟨fun h => by simp [categoryGate, h], fun h => ⟨by simp [categoryGate, h], ?_⟩⟩
  intro hne hmem
  simp [ProjectVisibilityEngine.getVisibleProjects, ProjectVisibilityEngine.setSearchQuery,
    ProjectVisibilityEngine.setCategory, ProjectVisibilityEngine.new, List.mem_filter,
    categoryGate, h, hne] at hmem

/-- Claim C2 witness: in the spec scenario, Alpha (category Tools) is excluded
when the category is set to "games". -/
theorem category_gate_law_witness :
    rAlpha ∉ (((ProjectVisibilityEngine.new [rAlpha, rBeta]).setCategory "games").setSearchQuery
      "").getVisibleProjects :=
  ((category_gate_law [rAlpha, rBeta] "games" "" rAlpha).2 (by decide)).2 (by decide)

/-- Every finite sequence of setSearchQuery and setCategory calls leaves the
stored collection unchanged. -/
theorem applyOps_allProjects (e : ProjectVisibilityEngine) (ops : List EngineOp) :
    (applyOps e ops).allProjects = e.allProjects := by
  induction ops generalizing e with
  | nil => rfl
  | cons o ops ih =>
    have hstep : (applyOp e o).allProjects = e.allProjects := by
      cases o <;> rfl
    calc (applyOps (applyOp e o) ops).allProjects
        = (applyOp e o).allProjects := ih _
      _ = e.allProjects := hstep

/-- Claim C4: after any finite sequence of setSearchQuery and setCategory
calls, reset() restores searchQuery to the empty string and category to the
sentinel "all", and getVisibleProjects then equals the result of a freshly
constructed engine over the same collection. -/
theorem reset_law (ps : List ProjectRecord) (ops : List EngineOp) :
    ((applyOps (ProjectVisibilityEngine.new ps) ops).reset.searchQuery = "" ∧
      (applyOps (ProjectVisibilityEngine.new ps) ops).reset.category = "all") ∧
    (applyOps (ProjectVisibilityEngine.new ps) ops).reset.getVisibleProjects
      = (ProjectVisibilityEngine.new ps).getVisibleProjects := by
  have hreset : (applyOps (ProjectVisibilityEngine.new ps) ops).reset
      = ProjectVisibilityEngine.new ps := by
    simp [ProjectVisibilityEngine.reset, applyOps_allProjects, ProjectVisibilityEngine.new]
  rw [hreset]
  exact ⟨⟨rfl, rfl⟩, rfl⟩

/-- Claim C5: getVisibleProjects is a pure function of the three-field state —
engines agreeing on allProjects, searchQuery and category produce identical
ordered results — a call leaves the engine state unchanged, and the result of
a second call equals the result of the first. -/
theorem getVisibleProjects_pure (e₁ e₂ : ProjectVisibilityEngine)
    (h₁ : e₁.allProjects = e₂.allProjects) (h₂ : e₁.searchQuery = e₂.searchQuery)
    (h₃ : e₁.category = e₂.category) :
    e₁.getVisibleProjects = e₂.getVisibleProjects ∧
      (getVisibleProjectsCall e₁).2 = e₁ ∧
      (getVisibleProjectsCall (getVisibleProjectsCall e₁).2).1
        = (getVisibleProjectsCall e₁).1 := by
  refine ⟨?_, rfl, rfl⟩
  simp [ProjectVisibilityEngine.getVisibleProjects, h₁, h₂, h₃]

/-- Claim C5 witness: purity at a concrete engine state. -/
theorem getVisibleProjects_pure_witness :
    (ProjectVisibilityEngine.new [rAlpha]).getVisibleProjects
        = (ProjectVisibilityEngine.new [rAlpha]).getVisibleProjects ∧
      (getVisibleProjectsCall (ProjectVisibilityEngine.new [rAlpha])).2
        = ProjectVisibilityEngine.new [rAlpha] ∧
      (getVisibleProjectsCall
          (getVisibleProjectsCall (ProjectVisibilityEngine.new [rAlpha])).2).1
        = (getVisibleProjectsCall (ProjectVisibilityEngine.new [rAlpha])).1 :=
  getVisibleProjects_pure _ _ rfl rfl rfl

/-- Claim C7: evaluation over a collection containing a record with a missing
tech list is total: the missing field contributes non-matching to the search
gate of that record only, and inserting such a record anywhere in the
collection leaves the visible contribution of every other record unchanged. -/
theorem malformed_record_law (sq c : String) (bad : ProjectRecord) (hbad : bad.tech = none)
    (l₁ l₂ : List ProjectRecord) :
    (searchGate sq bad =
        (normalize sq == "" || strIncludes (normalize bad.title) (normalize sq) ||
          strIncludes (normalize bad.description) (normalize sq))) ∧
      (ProjectVisibilityEngine.mk (l₁ ++ bad :: l₂) sq c).getVisibleProjects
        = (ProjectVisibilityEngine.mk l₁ sq c).getVisibleProjects ++
            ((ProjectVisibilityEngine.mk [bad] sq c).getVisibleProjects ++
              (ProjectVisibilityEngine.mk l₂ sq c).getVisibleProjects) := by
  constructor
  · simp [searchGate, hbad]
  · simp only [ProjectVisibilityEngine.getVisibleProjects, List.filter_append, List.filter_cons,
      List.filter_nil]
    cases h : (categoryGate c bad && searchGate sq bad) <;> simp [h]

/-- Claim C7 witness: the insertion law at a concrete collection around the
malformed record. -/
theorem malformed_record_law_witness :
    (searchGate "x" rBad =
        (normalize "x" == "" || strIncludes (normalize rBad.title) (normalize "x") ||
          strIncludes (normalize rBad.description) (normalize "x"))) ∧
      (ProjectVisibilityEngine.mk ([rAlpha] ++ rBad :: [rBeta]) "x" "all").getVisibleProjects
        = (ProjectVisibilityEngine.mk [rAlpha] "x" "all").getVisibleProjects ++
            ((ProjectVisibilityEngine.mk [rBad] "x" "all").getVisibleProjects ++
              (ProjectVisibilityEngine.mk [rBeta] "x" "all").getVisibleProjects) :=
  malformed_record_law "x" "all" rBad rfl [rAlpha] [rBeta]

/-- Claim C8: setCategory stores any string verbatim with no validation, and a
category that lowercases neither to the sentinel "all" nor to the category of
any record makes getVisibleProjects return the empty list rather than fail. -/
theorem setCategory_unknown_empty (e : ProjectVisibilityEngine) (c : String)
    (hall : jsToLower c ≠ "all")
    (hnone : ∀ r ∈ e.allProjects, jsToLower r.category ≠ jsToLower c) :
    (e.setCategory c).category = c ∧ (e.setCategory c).getVisibleProjects = [] := by
  refine ⟨rfl, ?_⟩
  simp only [ProjectVisibilityEngine.getVisibleProjects, ProjectVisibilityEngine.setCategory,
    List.filter_eq_nil_iff]
  intro r hr
  simp [categoryGate, hall, hnone r hr]

/-- Claim C8 witness: the spec scenario setCategory("nonexistent") yields the
empty visible list. -/
theorem setCategory_unknown_empty_witness :
    ((ProjectVisibilityEngine.new [rAlpha, rBeta]).setCategory "nonexistent").category
        = "nonexistent" ∧
      ((ProjectVisibilityEngine.new [rAlpha, rBeta]).setCategory
        "nonexistent").getVisibleProjects = [] :=
  setCategory_unknown_empty _ _ (by decide) (by decide)

/-- The counts function built by the loop of updateCategoryCounts assigns to
every key the number of projects whose counting key it is. -/
theorem categoryCountsLoop_count (ps : List RawProject) (k : String) :
    categoryCountsLoop ps k = (ps.map fun p => catKey p.category).count k := by
  suffices h : ∀ acc : String → Nat,
      (ps.foldl (fun counts p k => if k = catKey p.category then counts k + 1 else counts k)
          acc) k
        = acc k + (ps.map fun p => catKey p.category).count k by
    simpa [categoryCountsLoop] using h fun _ => 0
  induction ps with
  | nil => intro acc; simp
  | cons p ps ih =>
    intro acc
    simp only [List.foldl_cons, List.map_cons, List.count_cons]
    rw [ih]
    by_cases h : k = catKey p.category
    · subst h
      simp only [if_pos rfl, beq_self_eq_true, if_true]
      omega
    · have hbeq : (catKey p.category == k) = false := by
        simp only [beq_eq_false_iff_ne]
        exact fun hh => h hh.symm
      simp [if_neg h, hbeq]

/-- Claim C9: for a non-empty collection, updateCategoryCounts counts each
project exactly once — under its lowercased category when that field is
present and truthy, under "unknown" otherwise — and the per-key counts sum to
the length of the collection. -/
theorem updateCategoryCounts_partition (ps : List RawProject) (h : ps ≠ []) :
    updateCategoryCounts ps = some (categoryCountsLoop ps) ∧
      (∀ k, categoryCountsLoop ps k = (ps.map fun p => catKey p.category).count k) ∧
      (∀ s, s ≠ "" → catKey (some s) = jsToLower s) ∧
      (catKey none = "unknown" ∧ catKey (some "") = "unknown") ∧
      (∑ k in (ps.map fun p => catKey p.category).toFinset, categoryCountsLoop ps k)
        = ps.length := by
  refine ⟨?_, fun k => categoryCountsLoop_count ps k, ?_, ⟨rfl, rfl⟩, ?_⟩
  · simp [updateCategoryCounts, h]
  · intro s hs
    simp [catKey, hs]
  · have h1 := List.sum_toFinset_count_eq_length (ps.map fun p => catKey p.category)
    have h2 : (∑ k in (ps.map fun p => catKey p.category).toFinset, categoryCountsLoop ps k)
        = ∑ k in (ps.map fun p => catKey p.category).toFinset,
            (ps.map fun p => catKey p.category).count k :=
      Finset.sum_congr rfl fun k _ => categoryCountsLoop_count ps k
    rw [h2, h1, List.length_map]

/-- Concrete sample collection for the counting witness: one truthy category,
one absent, one empty string. -/
def psSample : List RawProject := [⟨some "Tools"⟩, ⟨none⟩, ⟨some ""⟩]

/-- Claim C9 witness: the counts over the sample collection sum to its
length. -/
theorem updateCategoryCounts_partition_witness :
    psSample ≠ [] ∧
      (∑ k in (psSample.map fun p => catKey p.category).toFinset,
          categoryCountsLoop psSample k)
        = psSample.length :=
  ⟨by decide, (updateCategoryCounts_partition psSample (by decide)).2.2.2.2⟩

end OpenPlayground
